import Mathlib

/-!
A shallow embedding of the CB500F marketplace-monitor core
(`src/monitor.py`, `src/fb_scraper.py`): the price parser, the relevance
filter, the field extractor with its concatenated-blob fallback, the
relative-date parser, and the snapshot change detector, together with
theorems about them.

Python strings are modelled as `List Char`; Python `re` patterns are
modelled by hand-rolled matchers that reproduce the engine's leftmost,
first-alternative, greedy semantics for the concrete patterns appearing
in the source.
-/

set_option maxRecDepth 4000

abbrev Str := List Char

/-- Python `\d` on the ASCII inputs handled here: a decimal digit. -/
def isDigitPy (c : Char) : Bool := '0' ≤ c && c ≤ '9'

/-- Python `\s` / `str.strip` whitespace on ASCII inputs. -/
def isSpacePy (c : Char) : Bool :=
  c = ' ' || c = '\t' || c = '\n' || c = '\x0b' || c = '\x0c' || c = '\r'

/-- Python `[A-Za-z]`. -/
def isAlphaPy (c : Char) : Bool :=
  ('A' ≤ c && c ≤ 'Z') || ('a' ≤ c && c ≤ 'z')

/-- Python `str.lower` (ASCII). -/
def lowerStr (s : Str) : Str := s.map Char.toLower

/-- Python `str.upper` (ASCII). -/
def upperStr (s : Str) : Str := s.map Char.toUpper

/-- Python `str.strip`: drop whitespace from both ends. -/
def stripPy (s : Str) : Str :=
  ((s.dropWhile isSpacePy).reverse.dropWhile isSpacePy).reverse

/-- Python substring test `needle in hay`. -/
def hasSub (needle : Str) : Str → Bool
  | [] => needle.isPrefixOf []
  | c :: rest => needle.isPrefixOf (c :: rest) || hasSub needle rest

/-- Substring relation in propositional form: `h = a ++ n ++ b`. -/
def SubStr (n h : Str) : Prop := ∃ a b, h = a ++ n ++ b

/-- Numeric value of a digit string (`int` / `float` of a digit run). -/
def natFromDigits (s : Str) : ℕ :=
  s.foldl (fun a c => a * 10 + (c.toNat - 48)) 0

/-- Python `str.split()`: split on whitespace runs, dropping empties. -/
def splitWs (s : Str) : List Str :=
  go s.length s
where
  go : ℕ → Str → List Str
  | 0, _ => []
  | _, [] => []
  | fuel + 1, c :: rest =>
    if isSpacePy c then go fuel rest
    else
      let w := (c :: rest).takeWhile (fun d => !isSpacePy d)
      w :: go fuel ((c :: rest).drop w.length)

/-- Python `' '.join`. -/
def joinSp : List Str → Str
  | [] => []
  | [w] => w
  | w :: rest => w ++ ' ' :: joinSp rest

/-- Python `str.replace needle repl` (all occurrences; needle nonempty). -/
def replaceAll (s needle repl : Str) : Str :=
  if needle = [] then s else go s.length s
where
  go : ℕ → Str → Str
  | 0, t => t
  | fuel + 1, t =>
    match t with
    | [] => []
    | c :: rest =>
      if needle.isPrefixOf t then repl ++ go fuel (t.drop needle.length)
      else c :: go fuel rest

/-! ### The price regex of `CB500Monitor.extract_price`

`re.findall(r'\$(\d{1,2}(?:,\d{3})*|\d{3,6})', text)`: at a `$`, the
engine first tries the `\d{1,2}(?:,\d{3})*` alternative (greedy), and
only if it fails the bare `\d{3,6}` run. -/

/-- Greedily take at most `max` leading digits, returning them and the rest. -/
def digitsTake : ℕ → Str → Str × Str
  | 0, s => ([], s)
  | _ + 1, [] => ([], [])
  | max + 1, c :: rest =>
    if isDigitPy c then
      let (d, r) := digitsTake max rest
      (c :: d, r)
    else ([], c :: rest)

/-- Greedy `(?:,\d{3})*`: consume comma-plus-three-digit groups. -/
def commaGroups : Str → Str × Str
  | ',' :: a :: b :: c :: rest =>
    if isDigitPy a && isDigitPy b && isDigitPy c then
      let (g, r) := commaGroups rest
      (',' :: a :: b :: c :: g, r)
    else ([], ',' :: a :: b :: c :: rest)
  | s => ([], s)

/-- First alternative `\d{1,2}(?:,\d{3})*` (after the `$`). -/
def priceAlt1 (s : Str) : Option (Str × Str) :=
  let (d, r1) := digitsTake 2 s
  if d = [] then none
  else
    let (g, r2) := commaGroups r1
    some (d ++ g, r2)

/-- Second alternative `\d{3,6}` (after the `$`). -/
def priceAlt2 (s : Str) : Option (Str × Str) :=
  let (d, _) := digitsTake 6 s
  if 3 ≤ d.length then some (d, s.drop d.length) else none

/-- Attempt the monitor price pattern at the head of `s`; on success
return the captured group (without `$`) and the remaining input. -/
def matchPrice1At : Str → Option (Str × Str)
  | '$' :: rest =>
    match priceAlt1 rest with
    | some gr => some gr
    | none => priceAlt2 rest
  | _ => none

/-- `re.findall` of the monitor price pattern: scan left to right,
non-overlapping, resuming after each match. -/
def findallPrice1 (s : Str) : List Str :=
  go s.length s
where
  go : ℕ → Str → List Str
  | 0, _ => []
  | _ + 1, [] => []
  | fuel + 1, c :: rest =>
    match matchPrice1At (c :: rest) with
    | some (g, r) => g :: go fuel r
    | none => go fuel rest

/-- Numeric value of one captured group (`float(match.replace(',', ''))`). -/
def parseNum (g : Str) : ℕ :=
  natFromDigits (g.filter (fun c => !(c = ',')))

/-- All candidate dollar amounts `extract_price` sees in `s`. -/
def priceCandidates (s : Str) : List ℕ :=
  (findallPrice1 s).map parseNum

/-- `CB500Monitor.MIN_PRICE`. -/
def MIN_PRICE : ℕ := 3500

/-- `CB500Monitor.MAX_PRICE`. -/
def MAX_PRICE : ℕ := 5800

/-- `CB500Monitor.extract_price`: find all dollar amounts, keep those in
the configured band, and return the largest, or `none`. -/
def extract_price (s : Str) : Option ℕ :=
  let ms := findallPrice1 s
  if ms = [] then none
  else
    let prices := ms.map parseNum
    let inband := prices.filter (fun p => decide (MIN_PRICE ≤ p) && decide (p ≤ MAX_PRICE))
    inband.max?

/-! ### The `fb_scraper.py` price regex and concatenated-field splitter

`re.findall(r'\$\d{1,2}(?:,\d{3})*|\$\d{3,6}', text)` in
`FacebookMarketplaceScraper._split_concatenated_field`: the same two
alternatives, but the match text includes the `$`. -/

/-- Attempt the scraper price pattern at the head of `s`; return the
full match (with `$`) and the remaining input. -/
def matchPrice2At : Str → Option (Str × Str)
  | '$' :: rest =>
    match priceAlt1 rest with
    | some (g, r) => some ('$' :: g, r)
    | none =>
      match priceAlt2 rest with
      | some (g, r) => some ('$' :: g, r)
      | none => none
  | _ => none

/-- `re.findall` of the scraper price pattern. -/
def findallPrice2 (s : Str) : List Str :=
  go s.length s
where
  go : ℕ → Str → List Str
  | 0, _ => []
  | _ + 1, [] => []
  | fuel + 1, c :: rest =>
    match matchPrice2At (c :: rest) with
    | some (g, r) => g :: go fuel r
    | none => go fuel rest

/-- The two-letter region codes of the scraper location pattern, in the
order the alternation lists them. -/
def stateCodes11 : List Str :=
  [['N','Y'], ['N','J'], ['P','A'], ['C','T'], ['M','A'],
   ['D','E'], ['M','D'], ['V','A'], ['F','L'], ['N','C'], ['S','C']]

/-- Optional mileage suffix `(?:\s*\d+K?\s*miles?)?` of the location
pattern: on success return the consumed text. -/
def matchMileage (s : Str) : Option Str :=
  let sp1 := s.takeWhile isSpacePy
  let r1 := s.drop sp1.length
  let d := r1.takeWhile isDigitPy
  if d = [] then none
  else
    let r2 := r1.drop d.length
    let (k, r3) := match r2 with
      | 'K' :: t => (['K'], t)
      | t => (([] : Str), t)
    let sp2 := r3.takeWhile isSpacePy
    let r4 := r3.drop sp2.length
    if (['m','i','l','e'] : Str).isPrefixOf r4 then
      let r5 := r4.drop 4
      let sfx : Str := match r5 with
        | 's' :: _ => ['s']
        | _ => []
      some (sp1 ++ d ++ k ++ sp2 ++ ['m','i','l','e'] ++ sfx)
    else none

/-- Attempt the location pattern
`([A-Za-z\s]+,\s*(?:NY|NJ|PA|CT|MA|DE|MD|VA|FL|NC|SC)(?:\s*\d+K?\s*miles?)?)`
at the head of `s`, returning the full matched text. -/
def matchLocAt (s : Str) : Option Str :=
  let run := s.takeWhile (fun c => isAlphaPy c || isSpacePy c)
  if run = [] then none
  else
    match s.drop run.length with
    | ',' :: r1 =>
      let sp := r1.takeWhile isSpacePy
      let r2 := r1.drop sp.length
      match stateCodes11.find? (fun code => code.isPrefixOf r2) with
      | some code =>
        let r3 := r2.drop code.length
        let mil := (matchMileage r3).getD []
        some (run ++ ',' :: (sp ++ code ++ mil))
      | none => none
    | _ => none

/-- `re.search` of the location pattern: first position (leftmost) at
which the pattern matches. -/
def searchLoc : Str → Option Str
  | [] => none
  | c :: t =>
    match matchLocAt (c :: t) with
    | some m => some m
    | none => searchLoc t

/-- Result of `_split_concatenated_field`. -/
structure SplitResult where
  price : Str
  location : Str
  clean_title : Str
deriving DecidableEq

/-- Python `str.isdigit` on a split token (nonempty, all digits). -/
def isDigitTok (w : Str) : Bool := !(w = []) && w.all isDigitPy

/-- `FacebookMarketplaceScraper._split_concatenated_field`: pull the
price matches out, then a location match, then keep the first six
surviving tokens (length > 2, not purely numeric) as the title. -/
def split_concatenated_field (text : Str) : SplitResult :=
  let pm := findallPrice2 text
  let price := joinSp pm
  let t1 := pm.foldl (fun t p => replaceAll t p [' ']) text
  let (loc, t2) :=
    match searchLoc t1 with
    | some m => (stripPy m, replaceAll t1 m [' '])
    | none => (([] : Str), t1)
  let parts := (splitWs t2).filter (fun w => decide (2 < w.length) && !isDigitTok w)
  { price := price, location := loc, clean_title := joinSp (parts.take 6) }

/-! ### Line classification in `_extract_listings_from_page` -/

/-- Extracted fields for one listing. -/
structure Fields where
  title : Str
  price_text : Str
  location : Str
  description : Str
  listed_date : Str
deriving DecidableEq

/-- The eight region codes the line classifier looks for. -/
def states8 : List Str :=
  [['N','Y'], ['N','J'], ['P','A'], ['C','T'], ['M','A'], ['D','E'], ['M','D'], ['V','A']]

/-- Temporal marker words for the listed-date line test. -/
def temporal6 : List Str :=
  ["ago".data, "day".data, "week".data, "month".data, "hour".data, "minute".data]

/-- Temporal marker words used by the description and title-swap tests. -/
def temporal3 : List Str := ["ago".data, "day".data, "week".data]

/-- Loop state while classifying the non-title lines. -/
structure LoopState where
  price_text : Str
  location : Str
  listed_date : Str
  description : Str
deriving DecidableEq

/-- One iteration of the field-classification loop over `lines[1:10]`. -/
def classifyLine (st : LoopState) (line : Str) : LoopState :=
  if st.price_text = [] &&
      (hasSub ['$'] line || (line.any isDigitPy && decide (line.length < 20))) then
    { st with price_text := line }
  else if st.location = [] &&
      (hasSub [','] line && states8.any (fun c => hasSub c (upperStr line))) then
    { st with location := line }
  else if st.listed_date = [] &&
      temporal6.any (fun w => hasSub w (lowerStr line)) then
    { st with listed_date := line }
  else if decide (25 < line.length) &&
      !(temporal3.any (fun w => hasSub w (lowerStr line))) && !(hasSub ['$'] line) then
    if st.description = [] then { st with description := line }
    else { st with description := st.description ++ ' ' :: line }
  else st

/-- The pure field-extraction logic of `_extract_listings_from_page`
applied to the text lines of one anchor: classify `lines[1:10]`, apply
the title/price swap, then the concatenated-field fallback. -/
def extractFields (lines : List Str) : Fields :=
  let raw_title := lines.headD []
  let st := ((lines.drop 1).take 9).foldl classifyLine ⟨[], [], [], []⟩
  let (title, price_text) :=
    if hasSub ['$'] raw_title && st.price_text = [] then
      let cand := ((lines.drop 1).take 3).find? (fun l =>
        !(hasSub ['$'] l) && decide (5 < l.length) &&
        !(temporal3.any (fun w => hasSub w (lowerStr l))))
      (cand.getD raw_title, raw_title)
    else (raw_title, st.price_text)
  if decide (80 < title.length) &&
      (hasSub ['$'] title || hasSub "honda".data (lowerStr title)) then
    let parts := split_concatenated_field title
    let price2 := if !(parts.price = []) && price_text = [] then parts.price else price_text
    let loc2 := if !(parts.location = []) && st.location = [] then parts.location else st.location
    let title2 := if !(parts.clean_title = []) then parts.clean_title else title
    ⟨title2, price2, loc2, st.description, st.listed_date⟩
  else
    ⟨title, price_text, st.location, st.description, st.listed_date⟩

/-! ### `_parse_relative_date`

`re.search(r'(\d+)\s*(minute|hour|day|week|month)s?\s*ago', s)` over the
lower-cased, stripped input, then subtraction of the corresponding
`timedelta` from `datetime.now()` and `strftime('%Y-%m-%d')`.  The
current instant is modelled as a count of minutes since the civil epoch
1970-01-01. -/

/-- Time units of the relative-date pattern. -/
inductive TimeUnit where
  | minute
  | hour
  | day
  | week
  | month
deriving DecidableEq

/-- The unit alternation `minute|hour|day|week|month`, in order. -/
def unitWords : List (Str × TimeUnit) :=
  [("minute".data, .minute), ("hour".data, .hour), ("day".data, .day),
   ("week".data, .week), ("month".data, .month)]

/-- Tail `\s*ago` of the date pattern. -/
def agoTail (s : Str) : Bool :=
  ("ago".data).isPrefixOf (s.drop (s.takeWhile isSpacePy).length)

/-- Attempt the relative-date pattern at the head of `s`, returning the
captured count and unit. -/
def matchDateAt (s : Str) : Option (ℕ × TimeUnit) :=
  let d := s.takeWhile isDigitPy
  if d = [] then none
  else
    let r1 := s.drop d.length
    let r2 := r1.drop (r1.takeWhile isSpacePy).length
    match unitWords.find? (fun wu => wu.1.isPrefixOf r2) with
    | none => none
    | some wu =>
      let r3 := r2.drop wu.1.length
      let ok := match r3 with
        | 's' :: t => agoTail t || agoTail ('s' :: t)
        | t => agoTail t
      if ok then some (natFromDigits d, wu.2) else none

/-- `re.search` of the relative-date pattern: leftmost match. -/
def searchDate : Str → Option (ℕ × TimeUnit)
  | [] => none
  | c :: t =>
    match matchDateAt (c :: t) with
    | some x => some x
    | none => searchDate t

/-- Convert a count of days since 1970-01-01 to a civil `(y, m, d)` date
(proleptic Gregorian calendar, as Python `datetime` uses). -/
def civilFromDays (z : ℤ) : ℤ × ℤ × ℤ :=
  let z' := z + 719468
  let era := z'.fdiv 146097
  let doe := z' - era * 146097
  let yoe := (doe - doe / 1460 + doe / 36524 - doe / 146096) / 365
  let y := yoe + era * 400
  let doy := doe - (365 * yoe + yoe / 4 - yoe / 100)
  let mp := (5 * doy + 2) / 153
  let d := doy - (153 * mp + 2) / 5 + 1
  let m := mp + (if mp < 10 then 3 else -9)
  (y + (if m ≤ 2 then 1 else 0), m, d)

/-- Decimal digit string of a natural number. -/
def natDigits (n : ℕ) : Str :=
  go (n + 1) n []
where
  go : ℕ → ℕ → Str → Str
  | 0, _, acc => acc
  | fuel + 1, n, acc =>
    if n < 10 then Char.ofNat (48 + n) :: acc
    else go fuel (n / 10) (Char.ofNat (48 + n % 10) :: acc)

/-- Zero-padded decimal rendering of a (nonnegative) number. -/
def padNum (width : ℕ) (n : ℤ) : Str :=
  let d := natDigits n.toNat
  List.replicate (width - d.length) '0' ++ d

/-- `strftime('%Y-%m-%d')` for a civil date. -/
def formatYMD : ℤ × ℤ × ℤ → Str
  | (y, m, d) => padNum 4 y ++ '-' :: (padNum 2 m ++ '-' :: padNum 2 d)

/-- Minutes subtracted for `n` of a given unit (months are 30 days). -/
def unitMinutes (u : TimeUnit) (n : ℕ) : ℤ :=
  match u with
  | .minute => n
  | .hour => n * 60
  | .day => n * 1440
  | .week => n * 10080
  | .month => n * 43200

/-- `FacebookMarketplaceScraper._parse_relative_date`: empty input yields
the empty string; otherwise the input is lower-cased and stripped, and a
non-matching string is returned in that form; a match resolves to the
date `nowMin - delta` rendered `%Y-%m-%d`. -/
def parse_relative_date (nowMin : ℤ) (s : Str) : Str :=
  if s = [] then []
  else
    let t := stripPy (lowerStr s)
    match searchDate t with
    | none => t
    | some (n, u) => formatYMD (civilFromDays ((nowMin - unitMinutes u n).fdiv 1440))

/-! ### The data model and `detect_changes` -/

/-- The fields of a listing record that the monitor's pure logic reads
(`listing.get(...)` on the scraped dicts; absent keys behave as `''`). -/
structure Listing where
  listing_id : Str
  title : Str
  price_text : Str
  description : Str
  location : Str
deriving DecidableEq

instance : Inhabited Listing := ⟨⟨[], [], [], [], []⟩⟩

/-- A Python dict from listing id to record, as an insertion-ordered
association list with unique keys. -/
abbrev Dict := List (Str × Listing)

/-- Key membership (`listing_id in d`). -/
def hasKey : Dict → Str → Bool
  | [], _ => false
  | kv :: rest, k => decide (kv.1 = k) || hasKey rest k

/-- Dict lookup (`d[k]`). -/
def dictFind : Dict → Str → Option Listing
  | [], _ => none
  | kv :: rest, k => if kv.1 = k then some kv.2 else dictFind rest k

/-- Python dict insertion: overwrite in place, else append. -/
def dictInsert (d : Dict) (k : Str) (v : Listing) : Dict :=
  if hasKey d k then d.map (fun kv => if kv.1 = k then (k, v) else kv)
  else d ++ [(k, v)]

/-- `{listing['listing_id']: listing for listing in new_listings}`. -/
def buildDict (ls : List Listing) : Dict :=
  ls.foldl (fun d l => dictInsert d l.listing_id l) []

/-- The price the change detector compares:
`extract_price(listing.get('price_text', '') + listing.get('title', ''))`. -/
def listingPrice (l : Listing) : Option ℕ :=
  extract_price (l.price_text ++ l.title)

/-- The monitor's `ListingChange` record. -/
structure ListingChange where
  change_type : Str
  listing_id : Str
  old_data : Option Listing := none
  new_data : Option Listing := none
  price_diff : Option ℤ := none
deriving DecidableEq

/-- The price-change test for one id present in both snapshots:
`if old_price and new_price and abs(old_price - new_price) > 50`. -/
def priceChangeOf (k : Str) (ol nl : Listing) : Option ListingChange :=
  match listingPrice ol, listingPrice nl with
  | some o, some n =>
    if !(o = 0) && !(n = 0) && decide (50 < ((o : ℤ) - (n : ℤ)).natAbs) then
      some { change_type := "price_change".data, listing_id := k,
             old_data := some ol, new_data := some nl,
             price_diff := some ((n : ℤ) - (o : ℤ)) }
    else none
  | _, _ => none

/-- `CB500Monitor.detect_changes`: new ids, removed ids, then price
moves over the common ids. -/
def detect_changes (old : Dict) (newListings : List Listing) : List ListingChange :=
  let nd := buildDict newListings
  let news := (nd.filter (fun kv => !hasKey old kv.1)).map (fun kv =>
    { change_type := "new".data, listing_id := kv.1, new_data := some kv.2 : ListingChange })
  let removed := (old.filter (fun kv => !hasKey nd kv.1)).map (fun kv =>
    { change_type := "removed".data, listing_id := kv.1, old_data := some kv.2 : ListingChange })
  let priceChanges := (old.filter (fun kv => hasKey nd kv.1)).filterMap (fun kv =>
    match dictFind nd kv.1 with
    | some nl => priceChangeOf kv.1 kv.2 nl
    | none => none)
  news ++ removed ++ priceChanges

/-! ### The relevance filter -/

/-- `CB500Monitor.SEARCH_QUERIES`, the inclusion keywords. -/
def inclusionKeywords : List Str :=
  ["cb500f".data, "cb500x".data, "cb 500f".data, "cb 500x".data]

/-- The excluded adjacent model keywords. -/
def exclusionKeywords : List Str :=
  ["cb650".data, "cb300".data, "cb1000".data, "cbr500".data, "cbr600".data]

/-- The searchable text of a listing:
`' '.join([title, price_text, description]).lower()`. -/
def searchText (l : Listing) : Str :=
  lowerStr (l.title ++ ' ' :: (l.price_text ++ ' ' :: l.description))

/-- `CB500Monitor.is_relevant_listing`. -/
def is_relevant_listing (l : Listing) : Bool :=
  let text := searchText l
  let has_cb500 := inclusionKeywords.any (fun q => hasSub q text)
  let has_exclude := exclusionKeywords.any (fun q => hasSub q text)
  let price := extract_price (l.price_text ++ l.title)
  let valid_price := match price with
    | none => false
    | some p => decide (MIN_PRICE ≤ p) && decide (p ≤ MAX_PRICE)
  has_cb500 && !has_exclude && valid_price

/-! ### The monitoring-cycle control flow (`run_monitor_cycle`) -/

/-- Observable outcome of one monitoring cycle: which store writes and
notifications happen. -/
structure CycleResult where
  saved_state : Option (List Listing)
  saved_history : Option (List Listing)
  reported_scrape_anomaly : Bool
  sent_changes : Option (List ListingChange)
  sent_no_changes : Bool
deriving DecidableEq

/-- `CB500Monitor.run_monitor_cycle` as a function of the loaded
previous state and the listings this cycle's scrape produced: an empty
scrape reports the anomaly and returns before any store write;
otherwise the diff runs, both store writes happen, and exactly one kind
of notification is sent. -/
def run_monitor_cycle (old : Dict) (scraped : List Listing) : CycleResult :=
  if scraped = [] then
    { saved_state := none, saved_history := none,
      reported_scrape_anomaly := true, sent_changes := none, sent_no_changes := false }
  else
    let changes := detect_changes old scraped
    { saved_state := some scraped, saved_history := some scraped,
      reported_scrape_anomaly := false,
      sent_changes := if changes = [] then none else some changes,
      sent_no_changes := changes = [] }

/-! ### Helper lemmas -/

theorem isPrefixOf_eq_true_iff (n : Str) : ∀ h : Str, n.isPrefixOf h = true ↔ ∃ t, h = n ++ t := by
  induction n with
  | nil =>
    intro h
    simp [List.isPrefixOf]
  | cons a n ih =>
    intro h
    cases h with
    | nil =>
      simp [List.isPrefixOf]
    | cons b h =>
      simp only [List.isPrefixOf, Bool.and_eq_true, beq_iff_eq, ih]
      constructor
      · rintro ⟨rfl, t, rfl⟩
        exact ⟨t, rfl⟩
      · rintro ⟨t, ht⟩
        cases ht
        exact ⟨rfl, t, rfl⟩

theorem hasSub_eq_true_iff (n : Str) : ∀ h : Str, hasSub n h = true ↔ SubStr n h := by
  intro h
  induction h with
  | nil =>
    simp only [hasSub, SubStr, isPrefixOf_eq_true_iff]
    constructor
    · rintro ⟨t, ht⟩
      exact ⟨[], t, ht⟩
    · rintro ⟨a, b, hab⟩
      rcases List.append_eq_nil.mp (List.append_eq_nil.mp hab.symm).1 with ⟨rfl, rfl⟩
      exact ⟨b, hab⟩
  | cons c rest ih =>
    simp only [hasSub, Bool.or_eq_true, isPrefixOf_eq_true_iff, ih, SubStr]
    constructor
    · rintro (⟨t, ht⟩ | ⟨a, b, hab⟩)
      · exact ⟨[], t, ht⟩
      · exact ⟨c :: a, b, by simp [hab]⟩
    · rintro ⟨a, b, hab⟩
      cases a with
      | nil => exact Or.inl ⟨b, by simpa using hab⟩
      | cons x a =>
        injection hab with hx hrest
        exact Or.inr ⟨a, b, hrest⟩

theorem natMax?_eq_some_iff {l : List ℕ} {v : ℕ} :
    l.max? = some v ↔ v ∈ l ∧ ∀ b ∈ l, b ≤ v :=
  List.max?_eq_some_iff (fun a => Nat.le_refl a) (fun a b => max_choice a b)
    (fun _ _ _ => Nat.max_le)

/-- A value returned by `extract_price` is an in-band candidate that
dominates every other in-band candidate. -/
theorem extract_price_some_spec {s : Str} {v : ℕ} (h : extract_price s = some v) :
    v ∈ priceCandidates s ∧ MIN_PRICE ≤ v ∧ v ≤ MAX_PRICE ∧
      ∀ p ∈ priceCandidates s, MIN_PRICE ≤ p → p ≤ MAX_PRICE → p ≤ v := by
  unfold extract_price at h
  by_cases hms : findallPrice1 s = []
  · simp [hms] at h
  · simp only [if_neg hms] at h
    rcases natMax?_eq_some_iff.mp h with ⟨hmem, hmax⟩
    rcases List.mem_filter.mp hmem with ⟨hcand, hband⟩
    simp only [Bool.and_eq_true, decide_eq_true_eq] at hband
    refine ⟨hcand, hband.1, hband.2, ?_⟩
    intro p hp hlo hhi
    exact hmax p (List.mem_filter.mpr ⟨hp, by simp [hlo, hhi]⟩)

/-- `extract_price` is `none` exactly when no candidate lies in the band. -/
theorem extract_price_none_iff (s : Str) :
    extract_price s = none ↔ ∀ p ∈ priceCandidates s, p < MIN_PRICE ∨ MAX_PRICE < p := by
  unfold extract_price
  by_cases hms : findallPrice1 s = []
  · simp [hms, priceCandidates]
  · simp only [if_neg hms, List.max?_eq_none_iff, List.filter_eq_nil_iff, priceCandidates]
    constructor
    · intro hnone p hp
      have := hnone p hp
      simp only [Bool.and_eq_true, decide_eq_true_eq] at this
      omega
    · intro hall p hp
      have := hall p hp
      simp only [Bool.and_eq_true, decide_eq_true_eq]
      omega

/-- The three lines of the spec's line-classification scenario. -/
def linesC6 : List Str :=
  ["$5,495".data, "2023 Honda cb500f".data, "Dover, DE".data]

/-- The concatenated blob of the spec's fallback scenario. -/
def blobC7 : Str :=
  "$2,700$3,5002014 Honda cb500fJackson Heights, NY32K miles".data

/-! ### Theorems for the claims -/

/-- Claim C3: `extract_price` discards candidates outside
`[MIN_PRICE, MAX_PRICE]` before taking the maximum; with no in-band
candidate it returns `none` (never zero), and otherwise the largest
in-band candidate. -/
theorem extract_price_band_max (s : Str) :
    (extract_price s = none ↔ ∀ p ∈ priceCandidates s, p < MIN_PRICE ∨ MAX_PRICE < p)
    ∧ extract_price s ≠ some 0
    ∧ ∀ v, extract_price s = some v →
        v ∈ priceCandidates s ∧ MIN_PRICE ≤ v ∧ v ≤ MAX_PRICE ∧
          ∀ p ∈ priceCandidates s, MIN_PRICE ≤ p → p ≤ MAX_PRICE → p ≤ v := by
  refine ⟨extract_price_none_iff s, ?_, fun v h => extract_price_some_spec h⟩
  intro h0
  have h := (extract_price_some_spec h0).2.1
  simp [MIN_PRICE] at h

/-- Claim C3 witness: on `"$9,999 or $4,500 obo $20"` the parser
returns 4500, which the theorem certifies is an in-band candidate. -/
theorem extract_price_band_max_witness :
    4500 ∈ priceCandidates ("$9,999 or $4,500 obo $20".data) ∧
      MIN_PRICE ≤ 4500 ∧ 4500 ≤ MAX_PRICE := by
  have h := (extract_price_band_max ("$9,999 or $4,500 obo $20".data)).2.2 4500 (by decide)
  exact ⟨h.1, h.2.1, h.2.2.1⟩

/-- Claim C4 (refuted; the code is the slip): the `\d{1,2}(?:,\d{3})*`
alternative of the price pattern is tried first and matches whenever any
digit follows `$`, so the bare `\d{3,6}` alternative never contributes;
for an input containing `"$4500"` the candidate set is `[45]`, not
containing 4500, and no price is extracted. -/
theorem extract_price_bare_digit_run_bug :
    (∀ rest : Str, matchPrice1At ('$' :: rest) = priceAlt1 rest)
    ∧ priceCandidates ("Honda $4500".data) = [45]
    ∧ ¬ (4500 ∈ priceCandidates ("Honda $4500".data))
    ∧ extract_price ("Honda $4500".data) = none := by
  refine ⟨?_, by decide, by decide, by decide⟩
  intro rest
  cases rest with
  | nil => decide
  | cons c t =>
    by_cases hc : isDigitPy c = true
    · rcases h1 : digitsTake 1 t with ⟨d1, r1⟩
      have hdt : digitsTake 2 (c :: t) = (c :: d1, r1) := by
        simp [digitsTake, hc, h1]
      rcases h2 : commaGroups r1 with ⟨g, r2⟩
      have hp1 : priceAlt1 (c :: t) = some (c :: d1 ++ g, r2) := by
        simp [priceAlt1, hdt, h2]
      simp [matchPrice1At, hp1]
    · have hp1 : priceAlt1 (c :: t) = none := by
        simp [priceAlt1, digitsTake, hc]
      have hp2 : priceAlt2 (c :: t) = none := by
        simp [priceAlt2, digitsTake, hc]
      simp [matchPrice1At, hp1, hp2]

/-- Claim C6 counterexample: on the lines `"$5,495"` /
`"2023 Honda cb500f"` / `"Dover, DE"`, the extractor does not yield
price `"$5,495"` with a title containing `"2023 Honda cb500f"`. -/
theorem extract_fields_line_mode_cex :
    ¬ ((extractFields linesC6).price_text = "$5,495".data ∧
       hasSub "2023 Honda cb500f".data (extractFields linesC6).title = true ∧
       (extractFields linesC6).location = "Dover, DE".data) := by
  decide

/-- Claim C6 amended: the digit-bearing second line is claimed as the
price by the classifier (any line with a digit and length < 20), so the
title/price swap never fires: the extractor yields title `"$5,495"`,
price `"2023 Honda cb500f"`, location `"Dover, DE"`. -/
theorem extract_fields_line_mode_result :
    extractFields linesC6 =
      { title := "$5,495".data, price_text := "2023 Honda cb500f".data,
        location := "Dover, DE".data, description := [], listed_date := [] } := by
  decide

/-- Claim C7 counterexample: on the concatenated blob, the splitter's
location field is not `"Jackson Heights, NY"` (with or without the
mileage suffix) and its cleaned title does not contain `"2014"`. -/
theorem split_concat_blob_cex :
    ¬ (((split_concatenated_field blobC7).location = "Jackson Heights, NY".data ∨
        (split_concatenated_field blobC7).location = "Jackson Heights, NY32K miles".data) ∧
       hasSub "2014".data (split_concatenated_field blobC7).clean_title = true ∧
       hasSub "Honda".data (split_concatenated_field blobC7).clean_title = true ∧
       hasSub "cb500f".data (split_concatenated_field blobC7).clean_title = true) := by
  decide

/-- Claim C7 amended: the price field joins both matches; the location
match starts at the final `f` of `cb500f` (the `[A-Za-z\s]+` run absorbs
it) and includes the mileage suffix; the cleaned title drops `2014` as a
purely numeric token and keeps `"Honda cb500"`. -/
theorem split_concat_blob_result :
    split_concatenated_field blobC7 =
      { price := "$2,700 $3,500".data,
        location := "fJackson Heights, NY32K miles".data,
        clean_title := "Honda cb500".data } := by
  decide

/-- Claim C9: an empty scrape reports the anomaly and returns before
either store write, leaving the previous snapshot in place. -/
theorem run_monitor_cycle_empty_preserves (old : Dict) (scraped : List Listing)
    (h : scraped = []) :
    (run_monitor_cycle old scraped).saved_state = none ∧
    (run_monitor_cycle old scraped).saved_history = none ∧
    (run_monitor_cycle old scraped).reported_scrape_anomaly = true := by
  subst h
  simp [run_monitor_cycle]

/-- Claim C9 witness: the no-write outcome at a concrete empty scrape. -/
theorem run_monitor_cycle_empty_preserves_witness :
    (run_monitor_cycle [] []).saved_state = none ∧
    (run_monitor_cycle [] []).saved_history = none ∧
    (run_monitor_cycle [] []).reported_scrape_anomaly = true :=
  run_monitor_cycle_empty_preserves [] [] rfl

/-- The minute count for a "now" of 2024-01-10 (day 19732 since the
epoch), 10:00 local time. -/
def now2024 : ℤ := 19732 * 1440 + 600

/-- Claim C8 counterexample: `"Hello"` matches no relative-date pattern
(even case-insensitively), yet the parser does not return it unchanged —
it returns the case-folded form. -/
theorem parse_relative_date_passthrough_cex :
    ¬ (parse_relative_date 0 ("Hello".data) = "Hello".data) := by
  decide

/-- Claim C8 amended: a non-matching input comes back lower-cased and
stripped (so output-equals-input detection fails on inputs with
uppercase or padding), and a matching input subtracts the corresponding
duration: `"3 days ago"` when now is 2024-01-10 resolves to
`"2024-01-07"`. -/
theorem parse_relative_date_amended :
    (∀ (now : ℤ) (s : Str), s ≠ [] → searchDate (stripPy (lowerStr s)) = none →
        parse_relative_date now s = stripPy (lowerStr s))
    ∧ parse_relative_date now2024 ("3 days ago".data) = "2024-01-07".data := by
  constructor
  · intro now s hs hmatch
    simp [parse_relative_date, hs, hmatch]
  · decide

/-- Claim C8 witness: the amended pass-through at the concrete
non-matching input `"Hello"`. -/
theorem parse_relative_date_amended_witness :
    parse_relative_date 0 ("Hello".data) = stripPy (lowerStr ("Hello".data)) :=
  parse_relative_date_amended.1 0 ("Hello".data) (by decide) (by decide)

/-- A listing whose text contains both `cb500f` and the excluded
`cb650`, with an in-band price. -/
def exampleCB650 : Listing :=
  { listing_id := "42".data, title := "2019 Honda cb500f swap cb650 parts".data,
    price_text := "$4,200".data, description := "Great bike".data, location := [] }

/-- A relevant listing (the one the repository's local test uses). -/
def exampleGood : Listing :=
  { listing_id := "7".data, title := "2019 Honda CB500F".data,
    price_text := "$4,200".data, description := "Great bike".data, location := [] }

/-- Claim C5: a listing is accepted iff its searchable text contains an
inclusion keyword, contains no exclusion keyword, and the price parsed
from `price_text + title` is present and in band; in particular the
`cb650`-tainted listing is rejected despite containing `cb500f`. -/
theorem is_relevant_listing_iff :
    (∀ l : Listing, is_relevant_listing l = true ↔
      ((∃ q ∈ inclusionKeywords, SubStr q (searchText l)) ∧
       (∀ e ∈ exclusionKeywords, ¬ SubStr e (searchText l)) ∧
       (∃ p, extract_price (l.price_text ++ l.title) = some p ∧
          MIN_PRICE ≤ p ∧ p ≤ MAX_PRICE)))
    ∧ is_relevant_listing exampleCB650 = false := by
  constructor
  · intro l
    cases hp : extract_price (l.price_text ++ l.title) with
    | none =>
      simp [is_relevant_listing, hp]
    | some p =>
      simp [is_relevant_listing, hp, List.any_eq_true, hasSub_eq_true_iff,
        Bool.and_eq_true, and_assoc]
  · decide

/-- Claim C5 witness: the three acceptance conditions instantiated at a
concrete accepted listing, obtained through the equivalence. -/
theorem is_relevant_listing_iff_witness :
    (∃ q ∈ inclusionKeywords, SubStr q (searchText exampleGood)) ∧
    (∀ e ∈ exclusionKeywords, ¬ SubStr e (searchText exampleGood)) ∧
    (∃ p, extract_price (exampleGood.price_text ++ exampleGood.title) = some p ∧
       MIN_PRICE ≤ p ∧ p ≤ MAX_PRICE) :=
  (is_relevant_listing_iff.1 exampleGood).mp (by decide)

/-! ### Dict lemmas for the change detector -/

theorem hasKey_eq_true_iff (d : Dict) (k : Str) :
    hasKey d k = true ↔ k ∈ d.map (fun kv => kv.1) := by
  induction d with
  | nil => simp [hasKey]
  | cons kv t ih =>
    simp only [hasKey, Bool.or_eq_true, decide_eq_true_eq, ih, List.map_cons,
      List.mem_cons]
    exact or_congr eq_comm Iff.rfl

theorem dictFind_eq_none_of_hasKey_false {d : Dict} {k : Str}
    (h : hasKey d k = false) : dictFind d k = none := by
  induction d with
  | nil => rfl
  | cons kv t ih =>
    simp only [hasKey, Bool.or_eq_false_iff, decide_eq_false_iff_not] at h
    simp [dictFind, h.1, ih h.2]

theorem dictFind_isSome_of_hasKey {d : Dict} {k : Str}
    (h : hasKey d k = true) : ∃ l, dictFind d k = some l := by
  induction d with
  | nil => simp [hasKey] at h
  | cons kv t ih =>
    by_cases hk : kv.1 = k
    · exact ⟨kv.2, by simp [dictFind, hk]⟩
    · simp only [hasKey, Bool.or_eq_true, decide_eq_true_eq] at h
      rcases h with h | h
      · exact absurd h hk
      · rcases ih h with ⟨l, hl⟩
        exact ⟨l, by simp [dictFind, hk, hl]⟩

theorem dictInsert_keys (d : Dict) (k : Str) (v : Listing) :
    (dictInsert d k v).map (fun kv => kv.1) =
      if hasKey d k then d.map (fun kv => kv.1)
      else d.map (fun kv => kv.1) ++ [k] := by
  unfold dictInsert
  by_cases h : hasKey d k = true
  · simp only [h, if_true, List.map_map]
    apply List.map_congr_left
    intro kv _
    by_cases hk : kv.1 = k
    · simp [hk]
    · simp [hk]
  · simp [h]

theorem buildDict_keys_nodup (ls : List Listing) :
    ((buildDict ls).map (fun kv => kv.1)).Nodup := by
  suffices h : ∀ d : Dict, (d.map (fun kv => kv.1)).Nodup →
      ((ls.foldl (fun d l => dictInsert d l.listing_id l) d).map (fun kv => kv.1)).Nodup by
    exact h [] (by simp)
  induction ls with
  | nil => intro d hd; simpa using hd
  | cons l t ih =>
    intro d hd
    simp only [List.foldl_cons]
    apply ih
    rw [dictInsert_keys]
    by_cases h : hasKey d l.listing_id = true
    · simpa [h] using hd
    · have hmem : l.listing_id ∉ d.map (fun kv => kv.1) := by
        intro hc
        exact absurd ((hasKey_eq_true_iff d l.listing_id).mpr hc) (by simp [h])
      simp [h, List.nodup_append, hd, hmem]

/-- Ids produced by a key-preserving `filterMap` stay within the source keys. -/
theorem filterMap_ids_subset (f : Str × Listing → Option ListingChange)
    (hf : ∀ kv c, f kv = some c → c.listing_id = kv.1) (l : List (Str × Listing)) :
    ∀ x, x ∈ (l.filterMap f).map (fun c => c.listing_id) →
      x ∈ l.map (fun kv => kv.1) := by
  intro x hx
  rcases List.mem_map.mp hx with ⟨c, hc, rfl⟩
  rcases List.mem_filterMap.mp hc with ⟨kv, hkv, hfkv⟩
  exact List.mem_map.mpr ⟨kv, hkv, (hf _ _ hfkv).symm⟩

/-- A key-preserving `filterMap` over a nodup-keyed list yields events
with pairwise distinct ids. -/
theorem filterMap_ids_nodup (f : Str × Listing → Option ListingChange)
    (hf : ∀ kv c, f kv = some c → c.listing_id = kv.1) :
    ∀ l : List (Str × Listing), (l.map (fun kv => kv.1)).Nodup →
      ((l.filterMap f).map (fun c => c.listing_id)).Nodup := by
  intro l
  induction l with
  | nil => intro _; simp
  | cons kv t ih =>
    intro h
    simp only [List.map_cons, List.nodup_cons] at h
    cases hfkv : f kv with
    | none => simpa [List.filterMap_cons, hfkv] using ih h.2
    | some c =>
      simp only [List.filterMap_cons, hfkv, List.map_cons, List.nodup_cons]
      refine ⟨?_, ih h.2⟩
      intro hc
      exact h.1 ((hf _ _ hfkv) ▸ filterMap_ids_subset f hf t c.listing_id hc)

/-- Characterization of a successful price-change test. -/
theorem priceChangeOf_spec {k : Str} {ol nl : Listing} {c : ListingChange}
    (h : priceChangeOf k ol nl = some c) :
    ∃ o n, listingPrice ol = some o ∧ listingPrice nl = some n ∧
      50 < ((o : ℤ) - (n : ℤ)).natAbs ∧
      c = { change_type := "price_change".data, listing_id := k,
            old_data := some ol, new_data := some nl,
            price_diff := some ((n : ℤ) - (o : ℤ)) } := by
  cases ho : listingPrice ol with
  | none => simp [priceChangeOf, ho] at h
  | some o =>
    cases hn : listingPrice nl with
    | none => simp [priceChangeOf, ho, hn] at h
    | some n =>
      simp only [priceChangeOf, ho, hn] at h
      split at h
      case isTrue hcond =>
        cases h
        refine ⟨o, n, rfl, rfl, ?_, rfl⟩
        simp only [Bool.and_eq_true, decide_eq_true_eq] at hcond
        exact hcond.2
      case isFalse => cases h

/-- The per-id worker of the price loop in `detect_changes`. -/
def priceWorker (nd : Dict) (kv : Str × Listing) : Option ListingChange :=
  match dictFind nd kv.1 with
  | some nl => priceChangeOf kv.1 kv.2 nl
  | none => none

theorem priceWorker_id (nd : Dict) (kv : Str × Listing) (c : ListingChange)
    (h : priceWorker nd kv = some c) : c.listing_id = kv.1 := by
  unfold priceWorker at h
  cases hf : dictFind nd kv.1 with
  | none => rw [hf] at h; cases h
  | some nl =>
    rw [hf] at h
    rcases priceChangeOf_spec h with ⟨o, n, _, _, _, rfl⟩
    rfl

theorem detect_changes_eq (old : Dict) (newL : List Listing) :
    detect_changes old newL =
      ((buildDict newL).filter (fun kv => !hasKey old kv.1)).map (fun kv =>
        { change_type := "new".data, listing_id := kv.1,
          new_data := some kv.2 : ListingChange }) ++
      (old.filter (fun kv => !hasKey (buildDict newL) kv.1)).map (fun kv =>
        { change_type := "removed".data, listing_id := kv.1,
          old_data := some kv.2 : ListingChange }) ++
      (old.filter (fun kv => hasKey (buildDict newL) kv.1)).filterMap
        (priceWorker (buildDict newL)) := rfl

theorem map_ids (l : List (Str × Listing)) (mk : Str × Listing → ListingChange)
    (hmk : ∀ kv, (mk kv).listing_id = kv.1) :
    (l.map mk).map (fun c => c.listing_id) = l.map (fun kv => kv.1) := by
  rw [List.map_map]
  exact List.map_congr_left (fun kv _ => hmk kv)

/-- Claim C2: every id appears in at most one change event per diff
call — the emitted events carry pairwise distinct listing ids. -/
theorem detect_changes_ids_nodup (old : Dict) (newL : List Listing)
    (h : (old.map (fun kv => kv.1)).Nodup) :
    ((detect_changes old newL).map (fun c => c.listing_id)).Nodup := by
  rw [detect_changes_eq]
  set nd := buildDict newL with hnd
  simp only [List.map_append]
  rw [map_ids _ _ (fun kv => rfl), map_ids _ _ (fun kv => rfl)]
  have hndk : (nd.map (fun kv => kv.1)).Nodup := buildDict_keys_nodup newL
  have hAnd : ((nd.filter (fun kv => !hasKey old kv.1)).map (fun kv => kv.1)).Nodup :=
    hndk.sublist (List.Sublist.map _ (List.filter_sublist nd))
  have hBnd : ((old.filter (fun kv => !hasKey nd kv.1)).map (fun kv => kv.1)).Nodup :=
    h.sublist (List.Sublist.map _ (List.filter_sublist old))
  have hCnd : (((old.filter (fun kv => hasKey nd kv.1)).filterMap
      (priceWorker nd)).map (fun c => c.listing_id)).Nodup :=
    filterMap_ids_nodup (priceWorker nd) (priceWorker_id nd) _
      (h.sublist (List.Sublist.map _ (List.filter_sublist old)))
  have memA : ∀ x ∈ (nd.filter (fun kv => !hasKey old kv.1)).map (fun kv => kv.1),
      hasKey old x = false := by
    intro x hx
    rcases List.mem_map.mp hx with ⟨kv, hkv, rfl⟩
    have := List.of_mem_filter hkv
    simpa using this
  have memB : ∀ x ∈ (old.filter (fun kv => !hasKey nd kv.1)).map (fun kv => kv.1),
      hasKey old x = true ∧ hasKey nd x = false := by
    intro x hx
    rcases List.mem_map.mp hx with ⟨kv, hkv, rfl⟩
    have h1 := List.of_mem_filter hkv
    have h2 := List.mem_of_mem_filter hkv
    exact ⟨(hasKey_eq_true_iff old kv.1).mpr (List.mem_map.mpr ⟨kv, h2, rfl⟩),
      by simpa using h1⟩
  have memC : ∀ x ∈ ((old.filter (fun kv => hasKey nd kv.1)).filterMap
      (priceWorker nd)).map (fun c => c.listing_id),
      hasKey old x = true ∧ hasKey nd x = true := by
    intro x hx
    have hx' := filterMap_ids_subset (priceWorker nd) (priceWorker_id nd) _ x hx
    rcases List.mem_map.mp hx' with ⟨kv, hkv, rfl⟩
    have h1 := List.of_mem_filter hkv
    have h2 := List.mem_of_mem_filter hkv
    exact ⟨(hasKey_eq_true_iff old kv.1).mpr (List.mem_map.mpr ⟨kv, h2, rfl⟩), h1⟩
  refine List.Nodup.append (List.Nodup.append hAnd hBnd ?_) hCnd ?_
  · intro x hxA hxB
    exact Bool.false_ne_true ((memA x hxA) ▸ (memB x hxB).1)
  · intro x hx hxC
    rcases List.mem_append.mp hx with hxA | hxB
    · exact Bool.false_ne_true ((memA x hxA) ▸ (memC x hxC).1)
    · exact Bool.false_ne_true ((memB x hxB).2 ▸ (memC x hxC).2)

/-- Claim C2 witness: distinct event ids on a concrete diff producing
one event of each kind. -/
theorem detect_changes_ids_nodup_witness :
    ((detect_changes
        [(['a'], { listing_id := ['a'], title := [], price_text := "$4,000".data,
                   description := [], location := [] })]
        [{ listing_id := ['b'], title := [], price_text := "$4,100".data,
           description := [], location := [] }]).map (fun c => c.listing_id)).Nodup :=
  detect_changes_ids_nodup _ _ (by decide)

theorem hasKey_of_dictFind_some {d : Dict} {k : Str} {l : Listing}
    (h : dictFind d k = some l) : hasKey d k = true := by
  by_contra hc
  rw [dictFind_eq_none_of_hasKey_false (Bool.not_eq_true _ ▸ hc)] at h
  cases h

/-- Claim C10: every emitted price-change event carries two resolved
in-band prices and `price_diff = new - old`, whose magnitude is above
the 50 threshold and at most the band width 2300. -/
theorem price_change_event_bounds (old : Dict) (newL : List Listing)
    (c : ListingChange) (hc : c ∈ detect_changes old newL)
    (ht : c.change_type = "price_change".data) :
    ∃ ol nl o n, c.old_data = some ol ∧ c.new_data = some nl ∧
      listingPrice ol = some o ∧ listingPrice nl = some n ∧
      MIN_PRICE ≤ o ∧ o ≤ MAX_PRICE ∧ MIN_PRICE ≤ n ∧ n ≤ MAX_PRICE ∧
      c.price_diff = some ((n : ℤ) - (o : ℤ)) ∧
      50 < ((n : ℤ) - (o : ℤ)).natAbs ∧ ((n : ℤ) - (o : ℤ)).natAbs ≤ 2300 := by
  rw [detect_changes_eq] at hc
  set nd := buildDict newL with hnd
  rcases List.mem_append.mp hc with hAB | hC
  · rcases List.mem_append.mp hAB with hA | hB
    · rcases List.mem_map.mp hA with ⟨kv, _, rfl⟩
      have hbad : ("new".data : Str) = "price_change".data := ht
      exact absurd hbad (by decide)
    · rcases List.mem_map.mp hB with ⟨kv, _, rfl⟩
      have hbad : ("removed".data : Str) = "price_change".data := ht
      exact absurd hbad (by decide)
  · rcases List.mem_filterMap.mp hC with ⟨kv, hkv, hw⟩
    unfold priceWorker at hw
    cases hnl : dictFind nd kv.1 with
    | none => rw [hnl] at hw; cases hw
    | some nl =>
      rw [hnl] at hw
      rcases priceChangeOf_spec hw with ⟨o, n, ho, hn, h50, rfl⟩
      have hob : MIN_PRICE ≤ o ∧ o ≤ MAX_PRICE := by
        have hsp := extract_price_some_spec (s := kv.2.price_text ++ kv.2.title) ho
        exact ⟨hsp.2.1, hsp.2.2.1⟩
      have hnb : MIN_PRICE ≤ n ∧ n ≤ MAX_PRICE := by
        have hsp := extract_price_some_spec (s := nl.price_text ++ nl.title) hn
        exact ⟨hsp.2.1, hsp.2.2.1⟩
      refine ⟨kv.2, nl, o, n, rfl, rfl, ho, hn, hob.1, hob.2, hnb.1, hnb.2, rfl, ?_, ?_⟩
      · omega
      · have := hob.1; have := hob.2; have := hnb.1; have := hnb.2
        simp only [MIN_PRICE, MAX_PRICE] at *
        omega

/-- Previous snapshot for the concrete price-change witness. -/
def oldC10 : Dict :=
  [("x".data, { listing_id := "x".data, title := "Honda CB500F".data,
                price_text := "$4,000".data, description := [], location := [] })]

/-- Current listings for the concrete price-change witness. -/
def newC10 : List Listing :=
  [{ listing_id := "x".data, title := "Honda CB500F".data,
     price_text := "$4,200".data, description := [], location := [] }]

/-- The single event `detect_changes oldC10 newC10` emits. -/
def eventC10 : ListingChange :=
  { change_type := "price_change".data, listing_id := "x".data,
    old_data := some { listing_id := "x".data, title := "Honda CB500F".data,
                       price_text := "$4,000".data, description := [], location := [] },
    new_data := some { listing_id := "x".data, title := "Honda CB500F".data,
                       price_text := "$4,200".data, description := [], location := [] },
    price_diff := some 200 }

/-- Claim C10 witness: the bounds at the concrete $4,000 → $4,200 move. -/
theorem price_change_event_bounds_witness :
    ∃ ol nl o n, eventC10.old_data = some ol ∧ eventC10.new_data = some nl ∧
      listingPrice ol = some o ∧ listingPrice nl = some n ∧
      MIN_PRICE ≤ o ∧ o ≤ MAX_PRICE ∧ MIN_PRICE ≤ n ∧ n ≤ MAX_PRICE ∧
      eventC10.price_diff = some ((n : ℤ) - (o : ℤ)) ∧
      50 < ((n : ℤ) - (o : ℤ)).natAbs ∧ ((n : ℤ) - (o : ℤ)).natAbs ≤ 2300 :=
  price_change_event_bounds oldC10 newC10 eventC10 (by decide) (by decide)

/-- Claim C1 (amended): the diff is empty iff the two snapshots have the
same id sets and no common id has both prices resolved with the
difference exceeding the 50 threshold. -/
theorem detect_changes_eq_nil_iff (old : Dict) (newL : List Listing) :
    detect_changes old newL = [] ↔
      ((∀ kv ∈ buildDict newL, hasKey old kv.1 = true) ∧
       (∀ kv ∈ old, hasKey (buildDict newL) kv.1 = true) ∧
       (∀ kv ∈ old, ∀ nl, dictFind (buildDict newL) kv.1 = some nl →
          ∀ o n, listingPrice kv.2 = some o → listingPrice nl = some n →
            ((o : ℤ) - (n : ℤ)).natAbs ≤ 50)) := by
  rw [detect_changes_eq]
  set nd := buildDict newL with hnd
  simp only [List.append_eq_nil, List.map_eq_nil_iff, List.filter_eq_nil_iff,
    List.filterMap_eq_nil_iff, Bool.not_eq_true', Bool.not_eq_false',
    Bool.not_eq_true, Bool.not_eq_false]
  constructor
  · rintro ⟨⟨h1, h2⟩, h3⟩
    refine ⟨h1, h2, ?_⟩
    intro kv hkv nl hnl o n ho hn
    have hk : hasKey nd kv.1 = true := hasKey_of_dictFind_some hnl
    have hnone := h3 kv (List.mem_filter.mpr ⟨hkv, hk⟩)
    unfold priceWorker at hnone
    rw [hnl] at hnone
    by_contra hgt
    push_neg at hgt
    have ho0 : o ≠ 0 := by
      have := (extract_price_some_spec (s := kv.2.price_text ++ kv.2.title) ho).2.1
      simp only [MIN_PRICE] at this
      omega
    have hn0 : n ≠ 0 := by
      have := (extract_price_some_spec (s := nl.price_text ++ nl.title) hn).2.1
      simp only [MIN_PRICE] at this
      omega
    simp [priceChangeOf, ho, hn, ho0, hn0, hgt] at hnone
  · rintro ⟨h1, h2, h3⟩
    refine ⟨⟨h1, h2⟩, ?_⟩
    intro kv hkv
    rcases List.mem_filter.mp hkv with ⟨hkvo, hk⟩
    unfold priceWorker
    cases hnl : dictFind nd kv.1 with
    | none => rfl
    | some nl =>
      cases ho : listingPrice kv.2 with
      | none => simp [priceChangeOf, ho]
      | some o =>
        cases hn : listingPrice nl with
        | none => simp [priceChangeOf, ho, hn]
        | some n =>
          have hle := h3 kv hkvo nl hnl o n ho hn
          have hnotgt : ¬ (50 < ((o : ℤ) - (n : ℤ)).natAbs) := by omega
          simp [priceChangeOf, ho, hn, hnotgt]

/-- Previous snapshot for the C1 counterexample: id `x` at $3,600. -/
def oldC1 : Dict :=
  [("x".data, { listing_id := "x".data, title := "Honda CB500F".data,
                price_text := "$3,600".data, description := [], location := [] })]

/-- Current listings for the C1 counterexample: id `x` at $3,630. -/
def newC1 : List Listing :=
  [{ listing_id := "x".data, title := "Honda CB500F".data,
     price_text := "$3,630".data, description := [], location := [] }]

/-- Claim C1 counterexample: the diff of these two snapshots is empty,
yet their id-to-price mappings are not identical (3600 vs 3630 — the
move is below the 50 threshold), refuting the claimed equivalence. -/
theorem detect_changes_price_map_cex :
    detect_changes oldC1 newC1 = [] ∧
    ¬ (oldC1.map (fun kv => (kv.1, listingPrice kv.2)) =
       (buildDict newC1).map (fun kv => (kv.1, listingPrice kv.2))) := by
  decide

/-- Claim C1 witness: the equivalence applied at the concrete pair,
deriving the same-ids and below-threshold conditions from the (computed)
empty diff. -/
theorem detect_changes_eq_nil_iff_witness :
    (∀ kv ∈ buildDict newC1, hasKey oldC1 kv.1 = true) ∧
    (∀ kv ∈ oldC1, hasKey (buildDict newC1) kv.1 = true) ∧
    (∀ kv ∈ oldC1, ∀ nl, dictFind (buildDict newC1) kv.1 = some nl →
       ∀ o n, listingPrice kv.2 = some o → listingPrice nl = some n →
         ((o : ℤ) - (n : ℤ)).natAbs ≤ 50) :=
  (detect_changes_eq_nil_iff oldC1 newC1).mp (by decide)
